import Mathlib

/-!
Verification of the paginated/incremental retrieval engine of the
`phil-inc/zendesk` Go client library.

The Go sources are shallowly embedded here:

* HTTP responses (`Resp`) carry the fields the walkers inspect: the status
  code, the `Retry-After` header value (the empty string models an absent
  header, exactly what Go's `Header.Get` returns then), the decoded body
  fields (`tickets`, `next_page`, `ticket`, `comments`), a flag `bodyOk`
  saying whether the JSON body decodes into the success payload, and the
  decoded error-envelope body for non-2xx responses (`none` models a body
  that does not decode as JSON).
* The server is a script: a list of `Resp` consumed one entry per issued
  request.  A walker that asks for a response after the script is
  exhausted yields `.needMore`, which lets a finite script witness an
  infinite request loop; a walker that re-enters its loop without
  consuming anything is modelled with explicit fuel and yields
  `.outOfFuel` on exhaustion.
* Go string slicing `s[i:]` panics when `i` is negative or beyond the
  length; `goSliceFrom` returns `none` exactly there and the walkers map
  that to the `.panicked` outcome.  All strings involved are ASCII, so
  Go's byte indices coincide with character indices.
* `time.Sleep` calls are recorded in a `sleeps` list (seconds, in call
  order), and every issued request increments a `reqs` counter, so the
  observable effects the spec talks about (suspensions, extra fetches)
  are part of each walker's result.
-/

/-! ## Go standard-library helpers -/

/-- Model of `strconv.ParseInt(s, 10, 64)`: optional sign, then a non-empty digit
string; errors on the empty string, on any non-digit and on values outside
the signed 64-bit range (Go reports `ErrRange` there, and every caller in
this repository treats any non-nil error alike). -/
def goParseInt64 (s : String) : Except Unit Int :=
  let core (l : List Char) (sign : Int) : Except Unit Int :=
    if l = [] then .error ()
    else if l.all (·.isDigit) then
      let n : Nat := l.foldl (fun a c => a * 10 + (c.toNat - 48)) 0
      let v : Int := sign * (n : Int)
      if -(2 ^ 63) ≤ v ∧ v ≤ 2 ^ 63 - 1 then .ok v else .error ()
    else .error ()
  match s.toList with
  | [] => .error ()
  | '+' :: rest => core rest 1
  | '-' :: rest => core rest (-1)
  | l => core l 1

/-- Helper for `goIndex`: first position (counting from `k`) at which
`sub` is a prefix of the remaining character list. -/
def goIndexAux (sub : List Char) : List Char → Nat → Option Nat
  | [], k => if sub.isEmpty then some k else none
  | l@(_ :: t), k => if sub.isPrefixOf l then some k else goIndexAux sub t (k + 1)

/-- Model of `strings.Index(s, sub)`: index of the first occurrence of `sub` in
`s`, or `-1` when absent. -/
def goIndex (s sub : String) : Int :=
  match goIndexAux sub.toList s.toList 0 with
  | some k => (k : Int)
  | none => -1

/-- Go string slicing `s[i:]`.  Returns `none` (a Go runtime panic) when
`i < 0` or `i > len(s)`.  (Implemented on the character list so that the
kernel can evaluate it.) -/
def goSliceFrom (s : String) (i : Int) : Option String :=
  if 0 ≤ i ∧ i ≤ (s.length : Int) then some ⟨s.data.drop i.toNat⟩ else none

/-- Model of `strings.Split(s, ".")[0]`: the text before the first dot (the whole
string when there is none). -/
def goUpToDot (s : String) : String :=
  ⟨s.data.takeWhile (· ≠ '.')⟩

/-! ## Data model

Per-resource records carry the fields the retrieval engine actually
reads (the identity-key fields); the remaining dozens of JSON fields are
abstracted into a single `rest` component so that two records can agree
on their key while differing elsewhere. -/

structure Ticket where
  id : Int
  rest : Nat
deriving DecidableEq

structure User where
  id : Int
  updatedAt : Option Int
  rest : Nat
deriving DecidableEq

structure TicketComment where
  id : Int
  rest : Nat
deriving DecidableEq

/-- Model of `APIErrorDetail` from the source: one per-field error entry. -/
structure APIErrorDetail where
  etype : String
  description : String
deriving DecidableEq

/-- The decoded JSON error envelope
`{error, description, details}` (`details` is a nil map when the key is
absent, modelled with `Option`). -/
structure ErrBody where
  etype : String
  description : String
  details : Option (List (String × List APIErrorDetail))
deriving DecidableEq

/-- Model of `APIError` from the source.  Instead of the embedded `*http.Response`
we keep the three pieces `Error()` reads from it: the request method, the
resolved request URL and the status code. -/
structure APIError where
  method : String
  url : String
  status : Int
  etype : String
  description : String
  details : Option (List (String × List APIErrorDetail))
deriving DecidableEq

/-- Error taxonomy of the engine: a structured API error, a JSON decode
failure of a success body, or a `strconv.ParseInt` failure. -/
inductive UErr where
  | api (e : APIError)
  | decodeErr
  | parseErr
deriving DecidableEq

/-- The fields of `APIPayload` the walkers under verification read. -/
structure Payload where
  tickets : List Ticket := []
  nextPage : String := ""
  ticket : Option Ticket := none
  comments : List TicketComment := []
deriving DecidableEq

/-- The zero `APIPayload` produced by `new(APIPayload)`. -/
def emptyPayload : Payload := {}

/-- One HTTP response as the walkers observe it. -/
structure Resp where
  status : Int
  retryAfter : String := ""
  bodyOk : Bool := true
  tickets : List Ticket := []
  nextPage : String := ""
  ticket : Option Ticket := none
  comments : List TicketComment := []
  errBody : Option ErrBody := none
deriving DecidableEq

/-- The payload fields of a response body. -/
def Resp.fields (r : Resp) : Payload :=
  { tickets := r.tickets, nextPage := r.nextPage, ticket := r.ticket,
    comments := r.comments }

/-- What `json.Decode` leaves in a fresh `APIPayload`: the body's fields
on a successful 2xx decode, the zero value otherwise (on the error path
`unmarshall` never touches `out`; a failed decode is modelled as leaving
it untouched as well). -/
def Resp.decoded (r : Resp) : Payload :=
  if 200 ≤ r.status ∧ r.status < 300 ∧ r.bodyOk then r.fields else emptyPayload

/-- The `APIError` value `unmarshall` builds for a non-2xx response:
fields from the decoded error body, or the `"Unknown"` fallback when the
body is not valid JSON. -/
def apiErrorOf (method url : String) (r : Resp) : APIError :=
  { method := method, url := url, status := r.status,
    etype := match r.errBody with
      | some b => b.etype
      | none => "Unknown",
    description := match r.errBody with
      | some b => b.description
      | none => "Oops! Something went wrong when parsing the error response.",
    details := match r.errBody with
      | some b => b.details
      | none => none }

/-- Model of `unmarshall` from `zendesk_client_service.go`: a non-2xx status
decodes the error envelope (falling back to a generic error when that
decode fails, without propagating the decode failure); a 2xx status
decodes the success payload, failing with the decode error if the body is
malformed. -/
def unmarshall (method url : String) (r : Resp) : Except UErr Payload :=
  if 200 ≤ r.status ∧ r.status < 300 then
    if r.bodyOk then .ok r.fields else .error .decodeErr
  else .error (.api (apiErrorOf method url r))

/-- Rendering of one `APIErrorDetail` under `fmt`'s `%+v`. -/
def renderDetail (d : APIErrorDetail) : String :=
  "\x7bType:" ++ d.etype ++ " Description:" ++ d.description ++ "\x7d"

/-- Rendering of the `details` map under `fmt`'s `%+v` (Go's `fmt` prints
map entries in key order; the model keeps the list's order). -/
def renderDetails (d : List (String × List APIErrorDetail)) : String :=
  "map[" ++ String.intercalate " "
    (d.map (fun p => p.1 ++ ":[" ++ String.intercalate " " (p.2.map renderDetail) ++ "]"))
    ++ "]"

/-- Model of `APIError.Error()` from the source: `"METHOD URL: STATUS"` followed by
the error type, description and details, each appended only when
present. -/
def APIError.render (e : APIError) : String :=
  let m1 := e.method ++ " " ++ e.url ++ ": " ++ toString e.status
  let m2 := if e.etype = "" then m1 else m1 ++ " " ++ e.etype
  let m3 := if e.description = "" then m2 else m2 ++ ": " ++ e.description
  match e.details with
  | none => m3
  | some d => m3 ++ ": " ++ renderDetails d

/-! ## Deduplicator

`getUniqTickets` and `getUniqUsers` are the same loop over different key
functions (a `map` used as a set of already-seen keys, records appended
to the result on first sight).  `getUniqByGo` is that loop, with the seen
set as a list of keys. -/

def getUniqByGo {α κ : Type} (key : α → κ) [DecidableEq κ] :
    List κ → List α → List α
  | _, [] => []
  | seen, a :: t =>
    if key a ∈ seen then getUniqByGo key seen t
    else a :: getUniqByGo key (key a :: seen) t

/-- Model of `getUniqTickets` from `zd_ticket_service.go`: key is the ticket ID
alone. -/
def getUniqTickets (l : List Ticket) : List Ticket :=
  getUniqByGo (fun t => t.id) [] l

/-- Go's `%v` of a `*time.Time`: the pointed-to time, or `<nil>`. -/
def fmtTimePtr : Option Int → String
  | none => "<nil>"
  | some t => toString t

/-- The `fmt.Sprintf("%v %v\n", user.ID, user.UpdatedAt)` dedup key of
`getUniqUsers`: identifier paired with the last-modified timestamp. -/
def userKey (u : User) : String :=
  toString u.id ++ " " ++ fmtTimePtr u.updatedAt ++ "\n"

/-- Model of `getUniqUsers` from the user service: key is ID plus `UpdatedAt`. -/
def getUniqUsers (l : List User) : List User :=
  getUniqByGo userKey [] l

/-! ## Walker outcomes -/

/-- Result of a ticket-walker run.  `done` carries the returned records,
the number of requests issued and the recorded `time.Sleep` durations;
`fail` is a `return nil, err`; `needMore` means the walker asked for a
response beyond the end of the script (so a finite script bounds the
observable behaviour of a non-terminating request loop); `panicked` is a
Go runtime panic (out-of-range string slice, nil-pointer dereference);
`outOfFuel` is only produced by the fuelled one-by-one walker, whose
rate-limit branch loops without consuming script entries. -/
inductive WalkOut where
  | done (records : List Ticket) (reqs : Nat) (sleeps : List Int)
  | fail (e : UErr)
  | needMore
  | panicked
  | outOfFuel
deriving DecidableEq

/-- Result of the single-request path `do`. -/
inductive DoOut where
  | ok (p : Payload) (reqs : Nat) (sleeps : List Int)
  | err (e : UErr) (reqs : Nat) (sleeps : List Int)
  | needMore
deriving DecidableEq

/-- Result of the ticket-comments one-by-one walker: the accumulated
`map[int64][]TicketComment` (as an association list written in first-write
order, later writes to the same key replacing in place), requests and
sleeps. -/
inductive CommentsOut where
  | done (m : List (Int × List TicketComment)) (reqs : Nat) (sleeps : List Int)
  | fail (e : UErr)
  | needMore
deriving DecidableEq

/-! ## The single-request path `do` -/

/-- Model of `do` from `zendesk_client_service.go`: issue the request; if the
response carries a non-empty `Retry-After` header whose value parses to a
non-zero integer, sleep that many seconds and issue the same request once
more; in every other case (header absent, unparseable, or zero) decode
the response at hand without sleeping. -/
def doRun (method endpoint : String) (script : List Resp) : DoOut :=
  match script with
  | [] => .needMore
  | r :: rest =>
    if r.retryAfter ≠ "" then
      match goParseInt64 r.retryAfter with
      | .error _ =>
        match unmarshall method endpoint r with
        | .ok p => .ok p 1 []
        | .error e => .err e 1 []
      | .ok a =>
        if a = 0 then
          match unmarshall method endpoint r with
          | .ok p => .ok p 1 []
          | .error e => .err e 1 []
        else
          match rest with
          | [] => .needMore
          | r2 :: _ =>
            match unmarshall method endpoint r2 with
            | .ok p => .ok p 2 [a]
            | .error e => .err e 2 [a]
    else
      match unmarshall method endpoint r with
      | .ok p => .ok p 1 []
      | .error e => .err e 1 []

/-! ## The plain list-all pagination walk `getAll`

`getAll(endpoint, in)` from `zendesk_client_service.go`.  Its loop runs
while `currentPage != ""`; there is no repeated-cursor check.  Each
iteration ends by fetching `dataPerPage.NextPage[apiStartIndex:]` and
unmarshalling the new response, aborting on any unmarshall error (which
makes the top-of-loop 429 branch reachable only for the very first
response, whose unmarshall error is ignored). -/

def getAllLoop (fieldName : String) (asi : Int) :
    (cp : String) → (res : Resp) → (p : Payload) → (acc : List Ticket) →
    (reqs : Nat) → (sleeps : List Int) → (script : List Resp) → WalkOut
  | cp, res, p, acc, reqs, sleeps, script =>
    if cp = "" then .done acc reqs sleeps
    else
      let next (acc' : List Ticket) (cp' : String) (sleeps' : List Int) : WalkOut :=
        match goSliceFrom p.nextPage asi with
        | none => .panicked
        | some path =>
          match script with
          | [] => .needMore
          | r2 :: rest =>
            match unmarshall "GET" path r2 with
            | .error e => .fail e
            | .ok p2 => getAllLoop fieldName asi cp' r2 p2 acc' (reqs + 1) sleeps' rest
      if res.status = 429 then
        match goParseInt64 res.retryAfter with
        | .error _ => .fail .parseErr
        | .ok a => next acc cp (sleeps ++ [a])
      else
        next (if fieldName = "tickets" then acc ++ p.tickets else acc) p.nextPage sleeps

/-- Entry to `getAll`: initial request, ignored first unmarshall (its
fields are taken only when the first response is a well-formed 2xx page),
`fieldName` from `endpoint[len("/api/v2/"):]`, `apiStartIndex` from the
first page's `NextPage`. -/
def getAll (endpoint : String) (script : List Resp) : WalkOut :=
  match script with
  | [] => .needMore
  | r :: rest =>
    match goSliceFrom endpoint 8 with
    | none => .panicked
    | some tail =>
      let fieldName := goUpToDot tail
      let p := r.decoded
      let asi := goIndex p.nextPage "/api/v2/"
      getAllLoop fieldName asi endpoint r p [] 1 [] rest

/-! ## The incremental ticket walk `getTicketsIncrementally`

From `zd_ticket_service.go`.  The loop runs while
`currentPage != dataPerPage.NextPage`, starting from the sentinel
`currentPage = "emptypage"`; a repeated cursor also hits the explicit
`break` after appending.  The 429 branch sleeps, sets
`dataPerPage.NextPage = currentPage` and re-issues the same request
without advancing.  Every iteration ends by fetching
`dataPerPage.NextPage[apiStartIndex:]` into a fresh (not yet decoded)
payload, so the new response is decoded at the top of the next
iteration. -/

/-- The `apiStartIndex` of `getTicketsIncrementally`:
`strings.Index("https://philhelp.zendesk.com"+apiV2, apiV2)`. -/
def incApiV2 : String := "/api/v2/incremental/tickets.json?start_time="

def incApiStartIndex : Int :=
  goIndex ("https://philhelp.zendesk.com" ++ incApiV2) incApiV2

/-- Result of one incremental-loop iteration: either the loop ends with
an outcome, or it issues the fetch `path` and continues with the updated
cursor, accumulator and sleep log. -/
inductive IncStep where
  | out (w : WalkOut)
  | fetch (path cp' : String) (acc' : List Ticket) (sleeps' : List Int)

/-- One iteration of the `getTicketsIncrementally` loop body (everything
up to, and including, computing the bottom fetch's path). -/
def incStep (asi : Int) (lp cp : String) (res : Resp) (p : Payload)
    (acc : List Ticket) (reqs : Nat) (sleeps : List Int) : IncStep :=
  if cp = p.nextPage then .out (.done (getUniqTickets acc) reqs sleeps)
  else if res.status = 429 then
    match goParseInt64 res.retryAfter with
    | .error _ => .out (.fail .parseErr)
    | .ok a =>
      match goSliceFrom cp asi with
      | none => .out .panicked
      | some path => .fetch path cp acc (sleeps ++ [a])
  else
    match unmarshall "GET" lp res with
    | .error e => .out (.fail e)
    | .ok p' =>
      let acc' := acc ++ p'.tickets
      if cp = p'.nextPage then .out (.done (getUniqTickets acc') reqs sleeps)
      else
        match goSliceFrom p'.nextPage asi with
        | none => .out .panicked
        | some path => .fetch path p'.nextPage acc' sleeps

def incLoop (asi : Int) :
    (lp cp : String) → (res : Resp) → (p : Payload) → (acc : List Ticket) →
    (reqs : Nat) → (sleeps : List Int) → (script : List Resp) → WalkOut
  | lp, cp, res, p, acc, reqs, sleeps, script =>
    match incStep asi lp cp res p acc reqs sleeps with
    | .out w => w
    | .fetch path cp' acc' sleeps' =>
      match script with
      | [] => .needMore
      | r2 :: rest =>
        incLoop asi path cp' r2 emptyPayload acc' (reqs + 1) sleeps' rest

/-- Model of `getTicketsIncrementally(unixTime, in)`: initial request for
`apiV2 ++ unixTime` (`lp` is the path of the last issued request, the
URL recorded into a potential `APIError`), then the loop above starting
from the `"emptypage"` sentinel with a fresh, not yet decoded payload. -/
def getTicketsIncrementally (unixTime : Int) (script : List Resp) : WalkOut :=
  match script with
  | [] => .needMore
  | r :: rest =>
    incLoop incApiStartIndex (incApiV2 ++ toString unixTime) "emptypage" r
      emptyPayload [] 1 [] rest

/-! ## The one-by-one ticket walk `getOneByOne`

From `zendesk_client_service.go`.  The loop is a while-style
`for ticketID < endID`; the 429 branch sleeps and `continue`s, which in a
while-style Go loop re-enters the body with the *same* stored response —
no new request is issued and `ticketID` does not advance, so the branch
consumes no script entries; the walker is therefore fuelled, one unit per
loop iteration.  The source hardcodes `startID = 1`, `endID = 10000`;
the loop is embedded with the bounds as arguments and `getOneByOne`
instantiates them. -/

def oneEndpoint (id : Nat) : String :=
  "/api/v2/tickets/" ++ toString id ++ ".json"

def oneLoop (endID : Nat) :
    (fuel tid : Nat) → (res : Resp) → (script : List Resp) →
    (acc : List Ticket) → (reqs : Nat) → (sleeps : List Int) → WalkOut
  | 0, tid, _, _, acc, reqs, sleeps =>
    if tid < endID then .outOfFuel else .done acc reqs sleeps
  | fuel + 1, tid, res, script, acc, reqs, sleeps =>
    if tid < endID then
      if res.status = 404 then
        match script with
        | [] => .needMore
        | r2 :: rest => oneLoop endID fuel (tid + 1) r2 rest acc (reqs + 1) sleeps
      else if res.status = 429 then
        match goParseInt64 res.retryAfter with
        | .error _ => .fail .parseErr
        | .ok a => oneLoop endID fuel tid res script acc reqs (sleeps ++ [a])
      else
        match unmarshall "GET" (oneEndpoint tid) res with
        | .error e => .fail e
        | .ok p =>
          match p.ticket with
          | none => .panicked
          | some t =>
            match script with
            | [] => .needMore
            | r2 :: rest =>
              oneLoop endID fuel (tid + 1) r2 rest (acc ++ [t]) (reqs + 1) sleeps
    else .done acc reqs sleeps

/-- The loop of `getOneByOne` over an arbitrary identifier range
`[start, endID)`: initial request for `start`, then the loop. -/
def oneRunRange (start endID fuel : Nat) (script : List Resp) : WalkOut :=
  match script with
  | [] => .needMore
  | r :: rest => oneLoop endID fuel start r rest [] 1 []

/-- Model of `getOneByOne` with the source's hardcoded bounds. -/
def getOneByOne (fuel : Nat) (script : List Resp) : WalkOut :=
  oneRunRange 1 10000 fuel script

/-! ## The ticket-comments one-by-one walk

From `zd_ticket_comments_service.go`.  The loop is a three-clause
`for ticketInd := 1; ticketInd < numTickets; ticketInd++`, so its 429
branch's `continue` *does* run the `ticketInd++` post-statement while
skipping the bottom fetch: the index advances with the stored response
unchanged.  Iteration `ticketInd` stores the decoded comments under
`ticketIDs[ticketInd-1]` and then fetches `ticketIDs[ticketInd]`.  The
loop index is embedded as the pair (`ind`, `rem`) with `rem` the
remaining iteration count `numTickets - ind`, which makes the recursion
structural. -/

/-- Go map assignment `m[k] = v` on an association list: replace in
place, or append when the key is new. -/
def mapSet {β : Type} : List (Int × β) → Int → β → List (Int × β)
  | [], k, v => [(k, v)]
  | (k', v') :: t, k, v =>
    if k' = k then (k, v) :: t else (k', v') :: mapSet t k v

def commentsEndpoint (id : Int) : String :=
  "/api/v2/tickets/" ++ toString id ++ "/comments.json"

def commentsLoop (ids : List Int) :
    (ind : Nat) → (res : Resp) → (script : List Resp) →
    (result : List (Int × List TicketComment)) → (reqs : Nat) →
    (sleeps : List Int) → (rem : Nat) → CommentsOut
  | _, _, _, result, reqs, sleeps, 0 => .done result reqs sleeps
  | ind, res, script, result, reqs, sleeps, rem + 1 =>
    let next (result' : List (Int × List TicketComment))
        (sleeps' : List Int) : CommentsOut :=
      match script with
      | [] => .needMore
      | r2 :: rest =>
        commentsLoop ids (ind + 1) r2 rest result' (reqs + 1) sleeps' rem
    if res.status = 404 then next result sleeps
    else if res.status = 429 then
      match goParseInt64 res.retryAfter with
      | .error _ => .fail .parseErr
      | .ok a =>
        commentsLoop ids (ind + 1) res script result reqs (sleeps ++ [a]) rem
    else
      match unmarshall "GET" (commentsEndpoint (ids.getD (ind - 1) 0)) res with
      | .error e => .fail e
      | .ok p => next (mapSet result (ids.getD (ind - 1) 0) p.comments) sleeps

/-- Model of `getTicketCommentsOneByOne(in, ticketIDs)`: an empty identifier list
returns the empty map before any request; otherwise the response for
`ticketIDs[0]` is fetched and the loop runs for
`numTickets - 1` iterations. -/
def getTicketCommentsOneByOne (ids : List Int) (script : List Resp) :
    CommentsOut :=
  if ids.length = 0 then .done [] 0 []
  else
    match script with
    | [] => .needMore
    | r :: rest => commentsLoop ids 1 r rest [] 1 [] (ids.length - 1)

/-! ## `WithHeader`

From `zendesk_client_service.go`.  Go's `map[string]string` is modelled
extensionally as `String → Option String`; the copy loop
(`for k, v := range c.headers`) builds a fresh map with the same entries,
which under value semantics is the map itself, and the subsequent
`newClient.headers[name] = value` is a pointwise update.  The transport
function is abstracted by an opaque tag. -/

structure GoClient where
  username : String
  password : String
  baseURL : String
  userAgent : String
  reqFuncTag : Nat
  headers : String → Option String

/-- Model of `WithHeader(name, value)`: shallow-copy the client, deep-copy the
header map, add the new entry. -/
def WithHeader (c : GoClient) (name value : String) : GoClient :=
  { c with headers := fun k => if k = name then some value else c.headers k }

/-! ## Concrete responses used in counterexamples and witnesses -/

/-- A well-formed 200 page response carrying `ts` and continuation
reference `np`. -/
def pageResp (ts : List Ticket) (np : String) : Resp :=
  { status := 200, tickets := ts, nextPage := np }

/-- A rate-limited response with `Retry-After: 1`. -/
def rl429 : Resp := { status := 429, retryAfter := "1" }

/-- A next-page URL as the live server returns it: absolute, with the
`/api/v2/` segment starting at byte 28. -/
def loopURL : String := "https://philhelp.zendesk.com/api/v2/tickets.json?page=2"

/-- A success response for the one-by-one ticket walk. -/
def okTicketResp (n : Int) : Resp := { status := 200, ticket := some ⟨n, 0⟩ }

/-- A 500 response with a decoded server error body. -/
def s500 : Resp := { status := 500, errBody := some ⟨"ServerErr", "boom", none⟩ }

/-- Shifting a walk outcome by an already-accumulated request count and
sleep log. -/
def adjustRS (r : Nat) (s : List Int) : WalkOut → WalkOut
  | .done recs n sl => .done recs (r + n) (s ++ sl)
  | w => w

/-! ## C10 — `WithHeader` -/

/-- Claim C10:  `WithHeader(name, value)` returns a client whose header map
is the original map plus the `(name, value)` entry (overwriting an
existing entry for `name`), with the credentials, base URL, user agent
and transport function unchanged.  The original client is a value in this
embedding, so it is unchanged by construction; the Go code guarantees
this by deep-copying the header map before mutating it. -/
theorem WithHeader_adds_header_frame (c : GoClient) (name value : String) :
    (∀ k, (WithHeader c name value).headers k =
        if k = name then some value else c.headers k) ∧
    (WithHeader c name value).username = c.username ∧
    (WithHeader c name value).password = c.password ∧
    (WithHeader c name value).baseURL = c.baseURL ∧
    (WithHeader c name value).userAgent = c.userAgent ∧
    (WithHeader c name value).reqFuncTag = c.reqFuncTag :=
  ⟨fun _ => rfl, rfl, rfl, rfl, rfl, rfl⟩

/-! ## C4 — the one-by-one walker's 429 handling -/

/-- On a 429 response the `getOneByOne` loop sleeps and `continue`s, but
the `continue` of Go's while-style `for ticketID < endID` loop re-enters
the body with the same stored response: the request is never re-issued.
The loop therefore never leaves the 429 branch, whatever fuel it is
given. -/
theorem oneLoop_429_never_refetches :
    ∀ (fuel : Nat) (script : List Resp) (acc : List Ticket)
      (reqs : Nat) (sleeps : List Int),
      oneLoop 10000 fuel 1 rl429 script acc reqs sleeps = .outOfFuel := by
  intro fuel
  induction fuel with
  | zero => intro script acc reqs sleeps; rfl
  | succ n ih =>
    intro script acc reqs sleeps
    have step : oneLoop 10000 (n + 1) 1 rl429 script acc reqs sleeps
        = oneLoop 10000 n 1 rl429 script acc reqs (sleeps ++ [1]) := rfl
    rw [step]
    exact ih script acc reqs (sleeps ++ [1])

/-- Claim C4:  When the response for identifier 1 is a 429 with
`Retry-After: 1`, `getOneByOne` never issues another request and never
terminates: it re-examines the same stored 429 response forever,
sleeping on each pass (`.outOfFuel` for every fuel bound).  The claim
says it should sleep once, re-issue identifier 1's request and
continue. -/
theorem getOneByOne_429_spins (fuel : Nat) (rest : List Resp) :
    getOneByOne fuel (rl429 :: rest) = .outOfFuel :=
  oneLoop_429_never_refetches fuel rest [] 1 []

/-! ## C1 — cursor-repetition termination -/

/-- Claim C1, counterexample:  `getAll` has no repeated-cursor check: its
loop only stops when the continuation reference becomes empty.  A server
that returns the same continuation reference on every page (in
particular twice in a row) keeps the walker fetching: after five
identical pages it is still asking for a sixth response instead of having
stopped after one extra fetch. -/
theorem getAll_repeated_cursor_keeps_fetching :
    getAll "/api/v2/tickets.json"
        [pageResp [⟨1, 0⟩] loopURL, pageResp [⟨1, 0⟩] loopURL,
         pageResp [⟨1, 0⟩] loopURL, pageResp [⟨1, 0⟩] loopURL,
         pageResp [⟨1, 0⟩] loopURL]
      = .needMore := by decide

/-- One-step unfolding of `incLoop`. -/
theorem incLoop_eq (asi : Int) (lp cp : String) (res : Resp) (p : Payload)
    (acc : List Ticket) (reqs : Nat) (sleeps : List Int) (script : List Resp) :
    incLoop asi lp cp res p acc reqs sleeps script
      = match incStep asi lp cp res p acc reqs sleeps with
        | .out w => w
        | .fetch path cp' acc' sleeps' =>
          match script with
          | [] => .needMore
          | r2 :: rest =>
            incLoop asi path cp' r2 emptyPayload acc' (reqs + 1) sleeps' rest := by
  conv_lhs => unfold incLoop

/-- Claim C1, amended:  The repeat-termination behaviour does hold for the
incremental walk: when a page's continuation reference equals the
previous page's, `getTicketsIncrementally` performs exactly one extra
fetch (two requests in total for a two-page script) and stops, returning
the deduplicated concatenation of both pages, whatever the rest of the
script holds.  (`28 ≤ u.length` says the continuation is long enough to
be sliced at the `apiStartIndex` offset 28 — true of every absolute
next-page URL the server returns — and `u ≠ "emptypage"` excludes the
walker's internal sentinel.) -/
theorem getTicketsIncrementally_repeat_stops
    (ut : Int) (T1 T2 : List Ticket) (u : String) (rest : List Resp)
    (hlen : 28 ≤ u.length) (hne : u ≠ "emptypage") :
    getTicketsIncrementally ut (pageResp T1 u :: pageResp T2 u :: rest)
      = .done (getUniqTickets (T1 ++ T2)) 2 [] := by
  have hasi : incApiStartIndex = 28 := by decide
  have hu0 : ¬ u = "" := by
    intro h
    rw [h] at hlen
    simp at hlen
  have hne' : ¬ ("emptypage" : String) = u := fun h => hne h.symm
  have hsent : ¬ ("emptypage" : String) = "" := by decide
  have hcond : (0 : Int) ≤ 28 ∧ (28 : Int) ≤ (u.length : Int) :=
    ⟨by norm_num, by exact_mod_cast hlen⟩
  have hslice : goSliceFrom u 28 = some ⟨u.data.drop 28⟩ := by
    simp [goSliceFrom, hcond]
  have hstep1 : incStep 28 (incApiV2 ++ toString ut) "emptypage"
      (pageResp T1 u) emptyPayload [] 1 []
      = .fetch (⟨u.data.drop 28⟩ : String) u T1 [] := by
    simp [incStep, unmarshall, pageResp, emptyPayload, Resp.fields, hne',
      hslice, hsent]
  have hstep2 : incStep 28 (⟨u.data.drop 28⟩ : String) u
      (pageResp T2 u) emptyPayload T1 2 []
      = .out (.done (getUniqTickets (T1 ++ T2)) 2 []) := by
    simp [incStep, unmarshall, pageResp, emptyPayload, Resp.fields, hu0]
  show incLoop incApiStartIndex (incApiV2 ++ toString ut) "emptypage"
      (pageResp T1 u) emptyPayload [] 1 [] (pageResp T2 u :: rest)
    = .done (getUniqTickets (T1 ++ T2)) 2 []
  rw [hasi, incLoop_eq, hstep1]
  show incLoop 28 (⟨u.data.drop 28⟩ : String) u (pageResp T2 u) emptyPayload
      T1 2 [] rest = .done (getUniqTickets (T1 ++ T2)) 2 []
  rw [incLoop_eq, hstep2]

/-- Witness for `getTicketsIncrementally_repeat_stops` at a concrete
two-page script whose pages repeat the live-format next-page URL. -/
theorem getTicketsIncrementally_repeat_stops_witness :
    getTicketsIncrementally 3
        (pageResp [⟨1, 0⟩] loopURL :: pageResp [⟨2, 0⟩] loopURL :: [])
      = .done (getUniqTickets ([⟨1, 0⟩] ++ [⟨2, 0⟩])) 2 [] :=
  getTicketsIncrementally_repeat_stops 3 [⟨1, 0⟩] [⟨2, 0⟩] loopURL []
    (by decide) (by decide)

/-! ## C5 — rate-limit transparency of the incremental walk -/

theorem adjustRS_comp (r1 r2 : Nat) (s1 s2 : List Int) (w : WalkOut) :
    adjustRS r1 s1 (adjustRS r2 s2 w) = adjustRS (r1 + r2) (s1 ++ s2) w := by
  cases w <;> simp [adjustRS] <;> omega

/-- Accumulator lemma: `incStep` uses its `reqs`/`sleeps` arguments only as accumulators. -/
theorem incStep_adjust (asi : Int) (lp cp : String) (res : Resp) (p : Payload)
    (acc : List Ticket) (reqs : Nat) (sleeps : List Int) :
    incStep asi lp cp res p acc reqs sleeps
      = match incStep asi lp cp res p acc 0 [] with
        | .out w => .out (adjustRS reqs sleeps w)
        | .fetch path cp' acc' sl' => .fetch path cp' acc' (sleeps ++ sl') := by
  by_cases h1 : cp = p.nextPage
  · simp [incStep, h1, adjustRS]
  · by_cases h2 : res.status = 429
    · cases hp : goParseInt64 res.retryAfter with
      | error e => simp [incStep, h1, h2, hp, adjustRS]
      | ok a => cases hs : goSliceFrom cp asi <;>
          simp [incStep, h1, h2, hp, hs, adjustRS]
    · cases hm : unmarshall "GET" lp res with
      | error e => simp [incStep, h1, h2, hm, adjustRS]
      | ok p' =>
        by_cases h3 : cp = p'.nextPage
        · simp only [incStep, h1, h2, hm, h3]
          split <;> simp [adjustRS, *]
        · cases hs : goSliceFrom p'.nextPage asi <;>
            simp [incStep, h1, h2, hm, h3, hs, adjustRS]

/-- Accumulator lemma: `incLoop` uses its `reqs`/`sleeps` arguments only as accumulators. -/
theorem incLoop_adjust (script : List Resp) :
    ∀ (asi : Int) (lp cp : String) (res : Resp) (p : Payload)
      (acc : List Ticket) (reqs : Nat) (sleeps : List Int),
    incLoop asi lp cp res p acc reqs sleeps script
      = adjustRS reqs sleeps (incLoop asi lp cp res p acc 0 [] script) := by
  induction script with
  | nil =>
    intro asi lp cp res p acc reqs sleeps
    rw [incLoop_eq, incLoop_eq, incStep_adjust]
    cases incStep asi lp cp res p acc 0 [] with
    | out w => simp
    | fetch path cp' acc' sl' => simp [adjustRS]
  | cons r2 rest ih =>
    intro asi lp cp res p acc reqs sleeps
    rw [incLoop_eq, incLoop_eq, incStep_adjust]
    cases incStep asi lp cp res p acc 0 [] with
    | out w => simp
    | fetch path cp' acc' sl' =>
      simp only []
      rw [ih, ih asi path cp' r2 emptyPayload acc' (0 + 1) sl', adjustRS_comp]

/-- Claim C5, amended:  At any loop state whose current cursor `cp` is a
sliceable continuation (`goSliceFrom cp 28 = some lp`, true of every
state after the first page, where `cp` is an absolute next-page URL and
`lp` the relative path last requested), a single 429 response with a
parseable `Retry-After` value `a`, inserted before the response `h` the
walker would otherwise have received, leaves the final record list
unchanged, costs exactly one extra request and invokes the suspend
exactly once with `a`.  (The base run's empty sleep log says it meets no
other rate limiting.)  For the very first fetch this fails: see the
counterexample, where the walker panics instead. -/
theorem incremental_rate_limit_transparent
    (lp cp : String) (r429 h : Resp) (t : List Resp) (a : Int)
    (acc recs : List Ticket) (reqs n : Nat)
    (h429 : r429.status = 429)
    (hpa : goParseInt64 r429.retryAfter = .ok a)
    (hlp : goSliceFrom cp 28 = some lp)
    (hbase : incLoop 28 lp cp h emptyPayload acc reqs [] t = .done recs n []) :
    incLoop 28 lp cp r429 emptyPayload acc reqs [] (h :: t)
      = .done recs (n + 1) [a] := by
  have hlen : (28 : Int) ≤ (cp.length : Int) := by
    by_contra hc
    unfold goSliceFrom at hlp
    rw [if_neg (fun hh => hc hh.2)] at hlp
    exact Option.noConfusion hlp
  have hcpne : ¬ cp = "" := by
    intro hh
    rw [hh] at hlen
    have : (("" : String)).length = 0 := rfl
    rw [this] at hlen
    omega
  have hstep : incStep 28 lp cp r429 emptyPayload acc reqs []
      = .fetch lp cp acc [a] := by
    simp [incStep, emptyPayload, hcpne, h429, hpa, hlp]
  rw [incLoop_eq, hstep]
  simp only []
  rw [incLoop_adjust] at hbase ⊢
  cases hb : incLoop 28 lp cp h emptyPayload acc 0 [] t with
  | done r0 n0 s0 =>
    rw [hb] at hbase
    simp [adjustRS] at hbase
    obtain ⟨hr, hn, hs⟩ := hbase
    simp [adjustRS, hr, hs]
    omega
  | fail e => rw [hb] at hbase; simp [adjustRS] at hbase
  | needMore => rw [hb] at hbase; simp [adjustRS] at hbase
  | panicked => rw [hb] at hbase; simp [adjustRS] at hbase
  | outOfFuel => rw [hb] at hbase; simp [adjustRS] at hbase

/-- Witness for `incremental_rate_limit_transparent` at a concrete
one-page tail: with the rate-limited response inserted the walker
returns the same records, one more request, and a single sleep of the
header's value 1. -/
theorem incremental_rate_limit_transparent_witness :
    incLoop 28 "/api/v2/tickets.json?page=2" loopURL rl429 emptyPayload [] 1 []
        (pageResp [⟨1, 0⟩] loopURL :: [])
      = .done (getUniqTickets [⟨1, 0⟩]) 2 [1] :=
  incremental_rate_limit_transparent "/api/v2/tickets.json?page=2" loopURL
    rl429 (pageResp [⟨1, 0⟩] loopURL) [] 1 [] (getUniqTickets [⟨1, 0⟩]) 1 1
    (by decide) rfl (by decide) (by decide)

/-- Claim C5, counterexample:  The claim fails at page index 1: a 429
answering the very first fetch makes `getTicketsIncrementally` slice the
`"emptypage"` sentinel at offset 28 and panic, while the run without
that rate-limited response completes normally — the two runs do not
return the same record list. -/
theorem incremental_first_fetch_429_panics :
    getTicketsIncrementally 3
        (rl429 :: pageResp [⟨1, 0⟩] loopURL :: pageResp [⟨2, 0⟩] loopURL :: [])
      = .panicked ∧
    getTicketsIncrementally 3
        (pageResp [⟨1, 0⟩] loopURL :: pageResp [⟨2, 0⟩] loopURL :: [])
      = .done (getUniqTickets ([⟨1, 0⟩] ++ [⟨2, 0⟩])) 2 [] :=
  ⟨by decide, by decide⟩

/-! ## C7 — absent / zero / unparseable `Retry-After` -/

/-- Claim C7, amended:  For the single-request path `do`, a `Retry-After`
header that is absent (`""`), unparseable, or zero causes no sleep and
the response is interpreted normally (decoded exactly as `unmarshall`
decodes it, with one request issued and an empty sleep log).  For the
`getAll` walker's 429 handling the claim fails: there a 429 whose
`Retry-After` is absent or unparseable aborts the call with the parse
error instead of interpreting the response (see the counterexample);
this part proves that abort. -/
theorem retryAfter_no_wait
    (method ep : String) (r : Resp) (rest : List Resp) :
    ((r.retryAfter = "" ∨ goParseInt64 r.retryAfter = .error ()
        ∨ goParseInt64 r.retryAfter = .ok 0) →
      doRun method ep (r :: rest)
        = match unmarshall method ep r with
          | .ok p => .ok p 1 []
          | .error e => .err e 1 []) ∧
    (8 ≤ ep.length → r.status = 429 → goParseInt64 r.retryAfter = .error () →
      getAll ep (r :: rest) = .fail .parseErr) := by
  constructor
  · intro hra
    by_cases hempty : r.retryAfter = ""
    · simp [doRun, hempty]
    · have hpe : goParseInt64 r.retryAfter = .error ()
          ∨ goParseInt64 r.retryAfter = .ok 0 := by
        rcases hra with h | h | h
        · exact absurd h hempty
        · exact Or.inl h
        · exact Or.inr h
      rcases hpe with h | h <;> simp [doRun, hempty, h]
  · intro hlen h429 hpe
    have hcond : (0 : Int) ≤ 8 ∧ (8 : Int) ≤ (ep.length : Int) :=
      ⟨by norm_num, by exact_mod_cast hlen⟩
    have hepne : ¬ ep = "" := by
      intro hh
      rw [hh] at hlen
      simp at hlen
    have hslice : goSliceFrom ep 8 = some ⟨ep.data.drop 8⟩ := by
      simp [goSliceFrom, hcond]
    show (match goSliceFrom ep 8 with
      | none => WalkOut.panicked
      | some tail =>
        getAllLoop (goUpToDot tail) (goIndex r.decoded.nextPage "/api/v2/")
          ep r r.decoded [] 1 [] rest) = .fail .parseErr
    rw [hslice]
    conv_lhs => unfold getAllLoop
    simp [hepne, h429, hpe]

/-- Witness for `retryAfter_no_wait`: both parts applied at concrete
responses — a header-less 200 response decoded normally with no sleep,
and `getAll`'s parse-error abort for a header-less 429. -/
theorem retryAfter_no_wait_witness :
    doRun "GET" "/api/v2/x.json" [{ status := 200, tickets := [⟨1, 0⟩] }]
      = .ok ({ status := 200, tickets := [⟨1, 0⟩] } : Resp).fields 1 [] ∧
    getAll "/api/v2/tickets.json" [{ status := 429 }] = .fail .parseErr := by
  constructor
  · exact ((retryAfter_no_wait "GET" "/api/v2/x.json"
        { status := 200, tickets := [⟨1, 0⟩] } []).1 (Or.inl rfl)).trans
      (by decide)
  · exact (retryAfter_no_wait "GET" "/api/v2/tickets.json"
        { status := 429 } []).2 (by decide) rfl rfl

/-- Claim C7, counterexample:  A 429 response whose `Retry-After` header
is absent makes `getAll` abort the whole call with the parse error —
it does not proceed to interpret the response normally (which would
surface the 429's own API error, not a parse failure). -/
theorem getAll_429_missing_header_aborts :
    getAll "/api/v2/tickets.json" [{ status := 429 }] = .fail .parseErr := by
  decide

/-! ## C3 — fatal abort of the one-by-one walk -/

/-- Claim C3:  When the identifier under the cursor answers with a status
that is neither 2xx nor 404 nor 429, the one-by-one walker aborts at
once: it returns `fail` with the structured `APIError` built from the
server's error body (or the `"Unknown"` fallback) — and no records, the
accumulator `acc` being discarded by the `return nil, err` this
constructor models. -/
theorem getOneByOne_fatal_abort
    (fuel tid endID : Nat) (res : Resp) (script : List Resp)
    (acc : List Ticket) (reqs : Nat) (sleeps : List Int)
    (hlt : tid < endID) (hfuel : 1 ≤ fuel)
    (hst : res.status < 200 ∨ 300 ≤ res.status)
    (h404 : res.status ≠ 404) (h429 : res.status ≠ 429) :
    oneLoop endID fuel tid res script acc reqs sleeps
      = .fail (.api (apiErrorOf "GET" (oneEndpoint tid) res)) := by
  obtain ⟨f, rfl⟩ : ∃ f, fuel = f + 1 := ⟨fuel - 1, by omega⟩
  have hum : unmarshall "GET" (oneEndpoint tid) res
      = .error (.api (apiErrorOf "GET" (oneEndpoint tid) res)) := by
    unfold unmarshall
    rw [if_neg (by rintro ⟨hh1, hh2⟩; omega)]
  simp only [oneLoop]
  rw [if_pos hlt, if_neg h404, if_neg h429, hum]

/-- Witness for `getOneByOne_fatal_abort`, instantiating the spec's
example: scanning identifiers 1–5 with identifier 3 answering 500, the
walker aborts with the server's error and returns no records (shown both
at the aborting loop state, by the theorem, and for the full run, by
evaluation). -/
theorem getOneByOne_fatal_abort_witness :
    oneLoop 6 7 3 s500 [okTicketResp 4, okTicketResp 5, okTicketResp 6]
        [⟨1, 0⟩, ⟨2, 0⟩] 3 []
      = .fail (.api (apiErrorOf "GET" (oneEndpoint 3) s500)) ∧
    oneRunRange 1 6 9
        [okTicketResp 1, okTicketResp 2, s500, okTicketResp 4,
         okTicketResp 5, okTicketResp 6]
      = .fail (.api (apiErrorOf "GET" (oneEndpoint 3) s500)) :=
  ⟨getOneByOne_fatal_abort 7 3 6 s500
      [okTicketResp 4, okTicketResp 5, okTicketResp 6] [⟨1, 0⟩, ⟨2, 0⟩] 3 []
      (by decide) (by decide) (Or.inr (by decide)) (by decide) (by decide),
   by decide⟩

/-! ## C6 — gap tolerance of the one-by-one walk -/

/-- Running the one-by-one loop from cursor `tid` over per-identifier
responses `f`, where identifier `i` answers 404 exactly when `nf i` and
otherwise succeeds with ticket `tkf i`: the loop returns the accumulator
extended with the tickets of the non-404 identifiers of `[tid, e)` in
ascending order, one request per remaining identifier, and no sleeps. -/
theorem oneLoop_range (e : Nat) (f : Nat → Resp) (tkf : Nat → Ticket)
    (nf : Nat → Bool) :
    ∀ (fuel tid : Nat) (acc : List Ticket) (reqs : Nat),
    tid ≤ e → e - tid ≤ fuel →
    (∀ i, tid ≤ i → i < e →
      if nf i = true then (f i).status = 404
      else (f i).status = 200 ∧ (f i).bodyOk = true
        ∧ (f i).ticket = some (tkf i)) →
    oneLoop e fuel tid (f tid) ((List.range' (tid + 1) (e - tid)).map f)
        acc reqs []
      = .done
          (acc ++ ((List.range' tid (e - tid)).filter (fun i => !nf i)).map tkf)
          (reqs + (e - tid)) [] := by
  intro fuel
  induction fuel with
  | zero =>
    intro tid acc reqs hte hfuel _
    have he : tid = e := by omega
    subst he
    simp [oneLoop]
  | succ fl ih =>
    intro tid acc reqs hte hfuel hresp
    by_cases hlt : tid < e
    · have hi := hresp tid le_rfl hlt
      have het : e - tid = (e - (tid + 1)) + 1 := by omega
      rw [het]
      simp only [List.range'_succ, List.map_cons, List.filter_cons]
      cases hnf : nf tid with
      | true =>
        have h404 : (f tid).status = 404 := by
          rw [hnf] at hi
          simpa using hi
        simp only [oneLoop]
        rw [if_pos hlt, if_pos h404]
        rw [ih (tid + 1) acc (reqs + 1) (by omega) (by omega)
          (fun i h1 h2 => hresp i (by omega) h2)]
        simp only [hnf, Bool.not_true]
        norm_num
        omega
      | false =>
        rw [hnf] at hi
        norm_num at hi
        obtain ⟨hs200, hbok, htk⟩ := hi
        have hum : unmarshall "GET" (oneEndpoint tid) (f tid)
            = .ok (f tid).fields := by
          unfold unmarshall
          rw [if_pos (by rw [hs200]; norm_num), if_pos hbok]
        simp only [oneLoop]
        rw [if_pos hlt, if_neg (by rw [hs200]; norm_num),
          if_neg (by rw [hs200]; norm_num), hum]
        simp only [Resp.fields]
        rw [htk]
        refine (ih (tid + 1) (acc ++ [tkf tid]) (reqs + 1) (by omega) (by omega)
          (fun i h1 h2 => hresp i (by omega) h2)).trans ?_
        simp only [hnf, Bool.not_false]
        norm_num [List.append_assoc, List.singleton_append]
        omega
    · have he : tid = e := by omega
      subst he
      simp [oneLoop]

/-- Claim C6:  One-by-one scan over `[s, e)` in which the identifiers with
`nf i` answer 404 and all others succeed with ticket `tkf i`: the walker
returns exactly the tickets of the succeeding identifiers in ascending
identifier order, skipping the 404s silently (no error, no sleeps); one
request is issued per identifier in `[s, e]`, the `e`-th being the final
discarded fetch. -/
theorem getOneByOne_gap_tolerance
    (s e fuel : Nat) (f : Nat → Resp) (tkf : Nat → Ticket) (nf : Nat → Bool)
    (hse : s ≤ e) (hfuel : e - s ≤ fuel)
    (hresp : ∀ i, i < e → s ≤ i →
      if nf i = true then (f i).status = 404
      else (f i).status = 200 ∧ (f i).bodyOk = true
        ∧ (f i).ticket = some (tkf i)) :
    oneRunRange s e fuel ((List.range' s (e + 1 - s)).map f)
      = .done (((List.range' s (e - s)).filter (fun i => !nf i)).map tkf)
          (1 + (e - s)) [] := by
  have h1 : e + 1 - s = (e - s) + 1 := by omega
  rw [h1, List.range'_succ, List.map_cons]
  show oneLoop e fuel s (f s) ((List.range' (s + 1) (e - s)).map f) [] 1 []
    = _
  rw [oneLoop_range e f tkf nf fuel s [] 1 hse hfuel
    (fun i h1 h2 => hresp i h2 h1)]
  simp

/-- Witness for `getOneByOne_gap_tolerance`: the spec's example — over
identifiers 1..5 with 2 and 4 answering not-found, the walker returns
exactly the records for 1, 3, 5 in ascending order. -/
theorem getOneByOne_gap_tolerance_witness :
    oneRunRange 1 6 5
        ((List.range' 1 6).map
          (fun i => if i = 2 ∨ i = 4 then { status := 404 }
                    else okTicketResp (i : Int)))
      = .done [⟨1, 0⟩, ⟨3, 0⟩, ⟨5, 0⟩] 6 [] :=
  (getOneByOne_gap_tolerance 1 6 5
      (fun i => if i = 2 ∨ i = 4 then { status := 404 }
                else okTicketResp (i : Int))
      (fun i => ⟨(i : Int), 0⟩) (fun i => i == 2 || i == 4)
      (by decide) (by decide) (by decide)).trans (by decide)

/-! ## C8 — error reporting for non-2xx responses -/

/-- Normal form lemma: `APIError.render` written as one append chain, each optional segment
collapsing to `""` when absent. -/
theorem render_cases (e : APIError) :
    e.render = ((e.method ++ " " ++ e.url ++ ": " ++ toString e.status)
        ++ (if e.etype = "" then "" else " " ++ e.etype))
      ++ (if e.description = "" then "" else ": " ++ e.description)
      ++ (match e.details with
          | none => ""
          | some d => ": " ++ renderDetails d) := by
  unfold APIError.render
  by_cases h1 : e.etype = "" <;> by_cases h2 : e.description = "" <;>
    cases e.details <;>
      simp [h1, h2, String.append_empty, String.append_assoc]

/-- Claim C8:  A non-2xx response makes `unmarshall` fail with the
structured `APIError` built from the response: its rendered message
starts with `"METHOD URL: STATUS"`, and carries the server-supplied
error type, description, and per-field details as substrings whenever
the decoded error body supplies them; when the error body does not
decode (`errBody = none`), the error instead carries the generic type
`"Unknown"` and the generic description — the decode failure itself is
not propagated. -/
theorem unmarshall_error_reporting (method url : String) (r : Resp)
    (hst : r.status < 200 ∨ 300 ≤ r.status) :
    unmarshall method url r = .error (.api (apiErrorOf method url r))
    ∧ (∃ w, (apiErrorOf method url r).render
        = method ++ " " ++ url ++ ": " ++ toString r.status ++ w)
    ∧ (∀ b, r.errBody = some b → ¬ b.etype = "" →
        ∃ v, (apiErrorOf method url r).render
          = method ++ " " ++ url ++ ": " ++ toString r.status ++ " "
            ++ b.etype ++ v)
    ∧ (∀ b, r.errBody = some b → ¬ b.description = "" →
        ∃ u v, (apiErrorOf method url r).render = u ++ b.description ++ v)
    ∧ (∀ b d, r.errBody = some b → b.details = some d →
        ∃ u, (apiErrorOf method url r).render = u ++ ": " ++ renderDetails d)
    ∧ (r.errBody = none →
        (apiErrorOf method url r).etype = "Unknown"
        ∧ (apiErrorOf method url r).description
          = "Oops! Something went wrong when parsing the error response.") := by
  have hcond : ¬ (200 ≤ r.status ∧ r.status < 300) := by
    rintro ⟨hh1, hh2⟩
    rcases hst with h | h <;> omega
  refine ⟨?_, ?_, ?_, ?_, ?_, ?_⟩
  · unfold unmarshall
    rw [if_neg hcond]
  · rw [render_cases]
    refine ⟨(if (apiErrorOf method url r).etype = "" then ""
        else " " ++ (apiErrorOf method url r).etype)
      ++ ((if (apiErrorOf method url r).description = "" then ""
        else ": " ++ (apiErrorOf method url r).description)
      ++ (match (apiErrorOf method url r).details with
          | none => ""
          | some d => ": " ++ renderDetails d)), ?_⟩
    simp [apiErrorOf, String.append_assoc]
  · intro b hb hbt
    rw [render_cases]
    have he : (apiErrorOf method url r).etype = b.etype := by
      simp [apiErrorOf, hb]
    rw [he, if_neg hbt]
    refine ⟨(if (apiErrorOf method url r).description = "" then ""
        else ": " ++ (apiErrorOf method url r).description)
      ++ (match (apiErrorOf method url r).details with
          | none => ""
          | some d => ": " ++ renderDetails d), ?_⟩
    simp [apiErrorOf, String.append_assoc]
  · intro b hb hbd
    rw [render_cases]
    have he : (apiErrorOf method url r).description = b.description := by
      simp [apiErrorOf, hb]
    rw [he, if_neg hbd]
    refine ⟨((apiErrorOf method url r).method ++ " "
          ++ (apiErrorOf method url r).url ++ ": "
          ++ toString (apiErrorOf method url r).status
        ++ (if (apiErrorOf method url r).etype = "" then ""
          else " " ++ (apiErrorOf method url r).etype)) ++ ": ",
      (match (apiErrorOf method url r).details with
        | none => ""
        | some d => ": " ++ renderDetails d), ?_⟩
    simp [String.append_assoc]
  · intro b d hb hd
    rw [render_cases]
    have he : (apiErrorOf method url r).details = some d := by
      simp [apiErrorOf, hb, hd]
    rw [he]
    refine ⟨((apiErrorOf method url r).method ++ " "
          ++ (apiErrorOf method url r).url ++ ": "
          ++ toString (apiErrorOf method url r).status
        ++ (if (apiErrorOf method url r).etype = "" then ""
          else " " ++ (apiErrorOf method url r).etype))
      ++ (if (apiErrorOf method url r).description = "" then ""
        else ": " ++ (apiErrorOf method url r).description), ?_⟩
    simp [String.append_assoc]
  · intro hb
    simp [apiErrorOf, hb]

/-- Witness for `unmarshall_error_reporting` at two concrete responses:
a 422 with a fully populated error body, and a 500 whose body does not
decode (generic `"Unknown"` fallback). -/
theorem unmarshall_error_reporting_witness :
    (unmarshall "GET" "/api/v2/u.json"
        { status := 422,
          errBody := some ⟨"RecordInvalid", "Record validation errors",
            some [("name", [⟨"BlankValue", "may not be blank"⟩])]⟩ }
      = .error (.api (apiErrorOf "GET" "/api/v2/u.json"
        { status := 422,
          errBody := some ⟨"RecordInvalid", "Record validation errors",
            some [("name", [⟨"BlankValue", "may not be blank"⟩])]⟩ })))
    ∧ ((apiErrorOf "GET" "/api/v2/u.json" { status := 500 }).etype = "Unknown"
      ∧ (apiErrorOf "GET" "/api/v2/u.json" { status := 500 }).description
        = "Oops! Something went wrong when parsing the error response.") := by
  constructor
  · exact (unmarshall_error_reporting "GET" "/api/v2/u.json"
      { status := 422,
        errBody := some ⟨"RecordInvalid", "Record validation errors",
          some [("name", [⟨"BlankValue", "may not be blank"⟩])]⟩ }
      (Or.inr (by norm_num))).1
  · exact (unmarshall_error_reporting "GET" "/api/v2/u.json"
      { status := 500, errBody := none }
      (Or.inr (by norm_num))).2.2.2.2.2 rfl

/-! ## C2 — the deduplicators keep exactly the first occurrence per key -/

theorem getUniqByGo_sublist {α κ : Type} (key : α → κ) [DecidableEq κ]
    (seen : List κ) (l : List α) :
    (getUniqByGo key seen l).Sublist l := by
  induction l generalizing seen with
  | nil => simp [getUniqByGo]
  | cons c t ih =>
    by_cases h : key c ∈ seen
    · simp only [getUniqByGo, if_pos h]
      exact (ih seen).cons c
    · simp only [getUniqByGo, if_neg h]
      exact (ih _).cons₂ c

theorem mem_getUniqByGo {α κ : Type} (key : α → κ) [DecidableEq κ]
    (seen : List κ) (l : List α) (a : α)
    (ha : a ∈ getUniqByGo key seen l) : key a ∉ seen := by
  induction l generalizing seen with
  | nil => simp [getUniqByGo] at ha
  | cons c t ih =>
    by_cases h : key c ∈ seen
    · simp only [getUniqByGo, if_pos h] at ha
      exact ih seen ha
    · simp only [getUniqByGo, if_neg h, List.mem_cons] at ha
      rcases ha with rfl | ha
      · exact h
      · have hnotc := ih _ ha
        intro hk
        exact hnotc (List.mem_cons_of_mem _ hk)

theorem getUniqByGo_pairwise {α κ : Type} (key : α → κ) [DecidableEq κ]
    (seen : List κ) (l : List α) :
    (getUniqByGo key seen l).Pairwise (fun x y => key x ≠ key y) := by
  induction l generalizing seen with
  | nil => simp [getUniqByGo]
  | cons c t ih =>
    by_cases h : key c ∈ seen
    · simp only [getUniqByGo, if_pos h]
      exact ih seen
    · simp only [getUniqByGo, if_neg h]
      refine List.Pairwise.cons ?_ (ih _)
      intro b hb he
      exact mem_getUniqByGo key _ _ b hb (by rw [← he]; exact List.mem_cons_self _ _)

theorem getUniqByGo_find? {α κ : Type} (key : α → κ) [DecidableEq κ]
    (seen : List κ) (l : List α) (k : κ) (hk : k ∉ seen) :
    (getUniqByGo key seen l).find? (fun a => decide (key a = k))
      = l.find? (fun a => decide (key a = k)) := by
  induction l generalizing seen with
  | nil => simp [getUniqByGo]
  | cons c t ih =>
    by_cases h : key c ∈ seen
    · have hck : ¬ key c = k := fun he => hk (he ▸ h)
      simp only [getUniqByGo, if_pos h]
      rw [List.find?_cons_of_neg _ (by simp [hck]), ih seen hk]
    · by_cases hck : key c = k
      · simp only [getUniqByGo, if_neg h]
        rw [List.find?_cons_of_pos _ (by simp [hck]),
          List.find?_cons_of_pos _ (by simp [hck])]
      · simp only [getUniqByGo, if_neg h]
        rw [List.find?_cons_of_neg _ (by simp [hck]),
          List.find?_cons_of_neg _ (by simp [hck])]
        refine ih _ ?_
        intro hmem
        rcases List.mem_cons.mp hmem with he | he
        · exact hck he.symm
        · exact hk he

theorem getUniqByGo_covers {α κ : Type} (key : α → κ) [DecidableEq κ]
    (seen : List κ) (l : List α) (a : α)
    (ha : a ∈ l) (hk : key a ∉ seen) :
    key a ∈ (getUniqByGo key seen l).map key := by
  induction l generalizing seen with
  | nil => cases ha
  | cons c t ih =>
    by_cases h : key c ∈ seen
    · simp only [getUniqByGo, if_pos h]
      rcases List.mem_cons.mp ha with rfl | hat
      · exact absurd h hk
      · exact ih seen hat hk
    · simp only [getUniqByGo, if_neg h, List.map_cons]
      rcases List.mem_cons.mp ha with rfl | hat
      · exact List.mem_cons_self _ _
      · by_cases hac : key a = key c
        · rw [hac]
          exact List.mem_cons_self _ _
        · refine List.mem_cons_of_mem _ (ih _ hat ?_)
          intro hmem
          rcases List.mem_cons.mp hmem with he | he
          · exact hac he
          · exact hk he

/-- Claim C2:  Both deduplicators return the subsequence of first
occurrences by their Identity Key — ticket ID alone for
`getUniqTickets`, the formatted (ID, UpdatedAt) pair for
`getUniqUsers`: the output is a stable sub-order of the input
(`Sublist`), no two output elements share a key (`Pairwise`), the
element kept for each key is the input's first occurrence of that key
(`find?` agrees with the input), and a key occurs in the output exactly
when it occurs in the input (so every dropped element is preceded by the
retained first occurrence of its key). -/
theorem getUniq_first_occurrence :
    (∀ l : List Ticket,
      (getUniqTickets l).Sublist l
      ∧ (getUniqTickets l).Pairwise (fun x y => x.id ≠ y.id)
      ∧ (∀ k : Int, (getUniqTickets l).find? (fun a => decide (a.id = k))
          = l.find? (fun a => decide (a.id = k)))
      ∧ (∀ k : Int, k ∈ (getUniqTickets l).map (fun a => a.id)
          ↔ k ∈ l.map (fun a => a.id)))
    ∧ (∀ l : List User,
      (getUniqUsers l).Sublist l
      ∧ (getUniqUsers l).Pairwise (fun x y => userKey x ≠ userKey y)
      ∧ (∀ k : String, (getUniqUsers l).find? (fun a => decide (userKey a = k))
          = l.find? (fun a => decide (userKey a = k)))
      ∧ (∀ k : String,
          k ∈ (getUniqUsers l).map userKey ↔ k ∈ l.map userKey)) := by
  constructor
  · intro l
    refine ⟨getUniqByGo_sublist _ [] l, getUniqByGo_pairwise _ [] l,
      fun k => getUniqByGo_find? _ [] l k (by simp), fun k => ?_⟩
    constructor
    · intro hk
      exact List.Sublist.mem hk ((getUniqByGo_sublist _ [] l).map _)
    · intro hk
      obtain ⟨a, hal, rfl⟩ := List.mem_map.mp hk
      exact getUniqByGo_covers _ [] l a hal (by simp)
  · intro l
    refine ⟨getUniqByGo_sublist _ [] l, getUniqByGo_pairwise _ [] l,
      fun k => getUniqByGo_find? _ [] l k (by simp), fun k => ?_⟩
    constructor
    · intro hk
      exact List.Sublist.mem hk ((getUniqByGo_sublist _ [] l).map _)
    · intro hk
      obtain ⟨a, hal, rfl⟩ := List.mem_map.mp hk
      exact getUniqByGo_covers _ [] l a hal (by simp)

/-- Witness for `getUniq_first_occurrence` at a concrete list with a
duplicated key: the first occurrence is retained in place, the later one
dropped. -/
theorem getUniq_first_occurrence_witness :
    getUniqTickets [⟨1, 0⟩, ⟨2, 0⟩, ⟨1, 5⟩] = [⟨1, 0⟩, ⟨2, 0⟩]
    ∧ (getUniqTickets [⟨1, 0⟩, ⟨2, 0⟩, ⟨1, 5⟩]).Pairwise
        (fun x y => x.id ≠ y.id) :=
  ⟨by decide, (getUniq_first_occurrence.1 [⟨1, 0⟩, ⟨2, 0⟩, ⟨1, 5⟩]).2.1⟩

/-! ## C9 — the comments walk drops the last identifier's response -/

theorem mapSet_mem {β : Type} (m : List (Int × β)) (k0 : Int) (v0 : β)
    (k : Int) (v : β) (h : (k, v) ∈ mapSet m k0 v0) :
    (k = k0 ∧ v = v0) ∨ (k, v) ∈ m := by
  induction m with
  | nil =>
    simp [mapSet] at h
    exact Or.inl h
  | cons p t ih =>
    rcases p with ⟨k', v'⟩
    by_cases hk : k' = k0
    · simp only [mapSet, if_pos hk, List.mem_cons] at h
      rcases h with he | he
      · rw [Prod.mk.injEq] at he
        exact Or.inl he
      · exact Or.inr (List.mem_cons_of_mem _ he)
    · simp only [mapSet, if_neg hk, List.mem_cons] at h
      rcases h with he | he
      · exact Or.inr (he ▸ List.mem_cons_self _ _)
      · rcases ih he with h1 | h1
        · exact Or.inl h1
        · exact Or.inr (List.mem_cons_of_mem _ h1)

theorem mapSet_fresh {β : Type} (m : List (Int × β)) (k0 : Int) (v0 : β)
    (h : k0 ∉ m.map Prod.fst) : mapSet m k0 v0 = m ++ [(k0, v0)] := by
  induction m with
  | nil => rfl
  | cons p t ih =>
    rcases p with ⟨k', v'⟩
    simp only [List.map_cons, List.mem_cons] at h
    push_neg at h
    have hne : ¬ k' = k0 := fun he => h.1 he.symm
    simp only [mapSet, if_neg hne]
    rw [ih h.2, List.cons_append]

/-- Invariant of the comments loop: every key ever written is
`ids[ind-1]` for some in-range iteration `ind < numTickets`, hence lies
in the first `numTickets - 1` identifiers. -/
theorem commentsLoop_keys (ids : List Int) :
    ∀ (rem ind : Nat) (res : Resp) (script : List Resp)
      (result : List (Int × List TicketComment)) (reqs : Nat)
      (sleeps : List Int) (m : List (Int × List TicketComment))
      (r : Nat) (s : List Int),
    1 ≤ ind → ind + rem ≤ ids.length →
    (∀ k v, (k, v) ∈ result → k ∈ ids.take (ids.length - 1)) →
    commentsLoop ids ind res script result reqs sleeps rem = .done m r s →
    ∀ k v, (k, v) ∈ m → k ∈ ids.take (ids.length - 1) := by
  intro rem
  induction rem with
  | zero =>
    intro ind res script result reqs sleeps m r s h1 h2 hinv heq
    simp only [commentsLoop, CommentsOut.done.injEq] at heq
    obtain ⟨rfl, -, -⟩ := heq
    exact hinv
  | succ rm ih =>
    intro ind res script result reqs sleeps m r s h1 h2 hinv heq
    simp only [commentsLoop] at heq
    by_cases h404 : res.status = 404
    · rw [if_pos h404] at heq
      cases script with
      | nil => exact absurd heq (by simp)
      | cons r2 rest =>
        exact ih (ind + 1) r2 rest result (reqs + 1) sleeps m r s
          (by omega) (by omega) hinv heq
    · rw [if_neg h404] at heq
      by_cases h429 : res.status = 429
      · rw [if_pos h429] at heq
        cases hp : goParseInt64 res.retryAfter with
        | error e =>
          rw [hp] at heq
          exact absurd heq (by simp)
        | ok a =>
          rw [hp] at heq
          exact ih (ind + 1) res script result reqs (sleeps ++ [a]) m r s
            (by omega) (by omega) hinv heq
      · rw [if_neg h429] at heq
        cases hm : unmarshall "GET" (commentsEndpoint (ids.getD (ind - 1) 0))
            res with
        | error e =>
          rw [hm] at heq
          exact absurd heq (by simp)
        | ok p =>
          rw [hm] at heq
          cases script with
          | nil => exact absurd heq (by simp)
          | cons r2 rest =>
            refine ih (ind + 1) r2 rest _ (reqs + 1) sleeps m r s
              (by omega) (by omega) ?_ heq
            intro k v hkv
            rcases mapSet_mem _ _ _ _ _ hkv with ⟨rfl, -⟩ | hkv'
            · have hlen : ind - 1 < ids.length := by omega
              rw [List.getD_eq_getElem ids 0 hlen]
              have hb : ind - 1 < (ids.take (ids.length - 1)).length := by
                rw [List.length_take]
                omega
              have h3 : (ids.take (ids.length - 1))[ind - 1] = ids[ind - 1] :=
                List.getElem_take ids
              rw [← h3]
              exact List.getElem_mem hb
            · exact hinv k v hkv'

/-- Running the comments loop over a per-identifier response function
where every identifier succeeds: iteration `ind` stores
`ids[ind-1] ↦ comments` and fetches `ids[ind]`, so the loop ends with
the map of the first `numTickets - 1` identifiers, `numTickets`
requests in total, and no sleeps. -/
theorem commentsLoop_success (ids : List Int) (f : Int → Resp)
    (hok : ∀ id ∈ ids, (f id).status = 200 ∧ (f id).bodyOk = true)
    (hnd : ids.Nodup) :
    ∀ (rem ind : Nat), 1 ≤ ind → ind + rem = ids.length →
    commentsLoop ids ind (f (ids.getD (ind - 1) 0)) ((ids.drop ind).map f)
        ((ids.take (ind - 1)).map (fun id => (id, (f id).comments))) ind []
        rem
      = .done ((ids.take (ids.length - 1)).map
          (fun id => (id, (f id).comments))) ids.length [] := by
  intro rem
  induction rem with
  | zero =>
    intro ind h1 h2
    simp only [commentsLoop]
    rw [show ind = ids.length from by omega]
  | succ rm ih =>
    intro ind h1 h2
    obtain ⟨j, rfl⟩ : ∃ j, ind = j + 1 := ⟨ind - 1, by omega⟩
    simp only [Nat.add_sub_cancel]
    have hind : j + 1 < ids.length := by omega
    have hj : j < ids.length := by omega
    have hk : ids.getD j 0 = ids[j] := List.getD_eq_getElem ids 0 hj
    have hmem : ids.getD j 0 ∈ ids := by
      rw [hk]
      exact List.getElem_mem hj
    obtain ⟨hs, hb⟩ := hok _ hmem
    have hum : unmarshall "GET" (commentsEndpoint (ids.getD j 0))
        (f (ids.getD j 0)) = .ok (f (ids.getD j 0)).fields := by
      unfold unmarshall
      rw [if_pos (by rw [hs]; norm_num), if_pos hb]
    have hdrop : ids.drop (j + 1) = ids[j + 1] :: ids.drop (j + 1 + 1) :=
      List.drop_eq_getElem_cons hind
    simp only [commentsLoop, Nat.add_sub_cancel]
    rw [if_neg (by rw [hs]; norm_num), if_neg (by rw [hs]; norm_num), hum,
      hdrop, List.map_cons]
    show commentsLoop ids (j + 1 + 1) (f ids[j + 1])
        ((ids.drop (j + 1 + 1)).map f)
        (mapSet ((ids.take j).map (fun id => (id, (f id).comments)))
          (ids.getD j 0) (f (ids.getD j 0)).comments)
        (j + 1 + 1) [] rm
      = .done ((ids.take (ids.length - 1)).map
          (fun id => (id, (f id).comments))) ids.length []
    have hkeys : ((ids.take j).map
        (fun id => (id, (f id).comments))).map Prod.fst
        = ids.take j := by
      rw [List.map_map]
      exact List.map_id'' (fun _ => rfl) _
    have hfresh : ids.getD j 0
        ∉ ((ids.take j).map (fun id => (id, (f id).comments))).map Prod.fst := by
      rw [hkeys, hk]
      intro hmem2
      have hdisj := List.disjoint_take_drop (l := ids) (m := j) (n := j)
        hnd le_rfl
      refine hdisj hmem2 ?_
      rw [List.drop_eq_getElem_cons hj]
      exact List.mem_cons_self _ _
    rw [mapSet_fresh _ _ _ hfresh]
    have htake : (ids.take j).map (fun id => (id, (f id).comments))
        ++ [(ids.getD j 0, (f (ids.getD j 0)).comments)]
        = (ids.take (j + 1)).map (fun id => (id, (f id).comments)) := by
      have hts : ids.take (j + 1) = ids.take j ++ [ids[j]] := by
        rw [List.take_succ]
        simp [List.getElem?_eq_getElem hj]
      rw [hts, List.map_append, hk]
      rfl
    rw [htake]
    have hgd : (ids[j + 1] : Int) = ids.getD (j + 1) 0 :=
      (List.getD_eq_getElem ids 0 hind).symm
    rw [hgd]
    have hstep := ih (j + 1 + 1) (by omega) (by omega)
    simpa using hstep

/-- Claim C9:  (i) An empty identifier list returns the empty map without
issuing any request.  (ii) Whatever the script, every key of the
returned map lies among the first `N - 1` identifiers — the last
identifier's response is never decoded or stored.  (iii) When every
identifier succeeds (distinct identifiers, decodable 200 bodies), the
map is exactly identifier ↦ comments for the first `N - 1` identifiers,
while `N` requests are issued — the last identifier's response is
requested and then dropped. -/
theorem getTicketComments_drops_last
    : (∀ script : List Resp, getTicketCommentsOneByOne [] script
        = .done [] 0 [])
    ∧ (∀ (ids : List Int) (script : List Resp)
        (m : List (Int × List TicketComment)) (rq : Nat) (sl : List Int),
        getTicketCommentsOneByOne ids script = .done m rq sl →
        ∀ k v, (k, v) ∈ m → k ∈ ids.take (ids.length - 1))
    ∧ (∀ (ids : List Int) (f : Int → Resp),
        ids.Nodup →
        (∀ id ∈ ids, (f id).status = 200 ∧ (f id).bodyOk = true) →
        getTicketCommentsOneByOne ids (ids.map f)
          = .done ((ids.take (ids.length - 1)).map
              (fun id => (id, (f id).comments))) ids.length []) := by
  refine ⟨fun script => rfl, ?_, ?_⟩
  · intro ids script m rq sl heq k v hkv
    unfold getTicketCommentsOneByOne at heq
    by_cases hn : ids.length = 0
    · rw [if_pos hn] at heq
      simp only [CommentsOut.done.injEq] at heq
      obtain ⟨h1, -, -⟩ := heq
      rw [← h1] at hkv
      cases hkv
    · rw [if_neg hn] at heq
      cases script with
      | nil => exact absurd heq (by simp)
      | cons r0 rest =>
        exact commentsLoop_keys ids (ids.length - 1) 1 r0 rest [] 1 [] m rq sl
          le_rfl (by omega) (by intro k' v' hkv'; cases hkv') heq k v hkv
  · intro ids f hnd hok
    unfold getTicketCommentsOneByOne
    cases ids with
    | nil => rfl
    | cons a t =>
      rw [if_neg (by simp)]
      simp only [List.map_cons]
      have h0 := commentsLoop_success (a :: t) f hok hnd
        ((a :: t).length - 1) 1 le_rfl (by simp [Nat.add_comm])
      simpa using h0

/-- Witness for `getTicketComments_drops_last`, applying part (iii) at
identifiers `[10, 20, 30]` with per-identifier comments: entries exist
only for 10 and 20, with three requests issued; the map is computed
explicitly by evaluation. -/
theorem getTicketComments_drops_last_witness :
    getTicketCommentsOneByOne [10, 20, 30]
        ([10, 20, 30].map
          (fun id => { status := 200, comments := [⟨id, 0⟩] }))
      = .done [(10, [⟨10, 0⟩]), (20, [⟨20, 0⟩])] 3 [] :=
  (getTicketComments_drops_last.2.2 [10, 20, 30]
      (fun id => { status := 200, comments := [⟨id, 0⟩] })
      (by decide) (by decide)).trans (by decide)
